import Mathlib

/-!
Shallow embedding of `HW4/utils.py`, utility glue for a sequence-to-sequence
chat model: vocabulary lookup (`ChatDictionary`), dataset loading
(`ChatDataset`), batch padding and sorting (`pad_tensor`, `argsort`,
`batchify`), and beam-search bookkeeping (`reorder_encoder_states`,
`reorder_decoder_incremental_state`, `get_nbest_list_from_beam`).

Modelling conventions:
* Python dicts are `Option`-valued lookup functions; a `none` result models a
  `KeyError`.
* 1-D tensors are `List Int` (or `List Nat` for token-id vectors), 2-D tensors
  are lists of rows; `torch.index_select` becomes list indexing.
* Fallible code (key lookups, indexing `[0]` into a possibly-empty list, the
  unbound-name error in `reorder_decoder_incremental_state`) returns `Option`.
* Python's `sorted` is a stable sort; it is modelled by `List.insertionSort`,
  which is also stable, and stable sorts for the same key order agree.
-/

/-- `ChatDictionary`'s three dicts: `word2ind` (word to index), `ind2word`
(index to word) and `counts` (word to the raw count string; the count is never
converted to a number in the Python code, so it stays a `String` here). -/
structure ChatDictionary where
  word2ind : String → Option Nat
  ind2word : Nat → Option String
  counts : String → Option String

/-- The empty dicts created at the start of `ChatDictionary.__init__`. -/
def emptyChatDictionary : ChatDictionary :=
  ⟨fun _ => none, fun _ => none, fun _ => none⟩

/-- The `if _word == '\\n': _word = '\n'` normalisation in
`ChatDictionary.__init__`. -/
def fixWord (w : String) : String := if w = "\\n" then "\n" else w

/-- One iteration of the `for i, w in enumerate(dict_raw)` loop body in
`ChatDictionary.__init__`: record `word2ind[_word] = i`, `ind2word[i] = _word`,
`counts[_word] = _count`, overwriting earlier entries for the same key. -/
def addEntry (d : ChatDictionary) (i : Nat) (w c : String) : ChatDictionary :=
  let word := fixWord w
  { word2ind := fun x => if x = word then some i else d.word2ind x
    ind2word := fun j => if j = i then some word else d.ind2word j
    counts := fun x => if x = word then some c else d.counts x }

/-- The enumeration loop of `ChatDictionary.__init__`, starting at index `i`. -/
def buildDictAux (d : ChatDictionary) (i : Nat) :
    List (String × String) → ChatDictionary
  | [] => d
  | (w, c) :: rest => buildDictAux (addEntry d i w c) (i + 1) rest

/-- `ChatDictionary.__init__`, with the dictionary file already read and each
line split into its `(word, count)` pair (`w.strip().split('\t')`). -/
def buildDict (entries : List (String × String)) : ChatDictionary :=
  buildDictAux emptyChatDictionary 0 entries

/-- The per-token expression of `t2v`:
`self.word2ind[w] if w in self.counts else self.word2ind['__unk__']`. -/
def lookupToken (d : ChatDictionary) (w : String) : Option Nat :=
  if (d.counts w).isSome then d.word2ind w else d.word2ind "__unk__"

/-- `ChatDictionary.t2v`: the list comprehension over `tokenized_text`;
`none` models a `KeyError` (only possible for a missing `'__unk__'`). -/
def ChatDictionary.t2v (d : ChatDictionary) : List String → Option (List Nat)
  | [] => some []
  | w :: ws =>
    match lookupToken d w, d.t2v ws with
    | some i, some is => some (i :: is)
    | _, _ => none

/-- The list comprehension `[self.ind2word[i] for i in list_ids]` inside
`v2t`; `none` models a `KeyError` for an unknown index. -/
def mapInd2word (d : ChatDictionary) : List Nat → Option (List String)
  | [] => some []
  | i :: is =>
    match d.ind2word i, mapInd2word d is with
    | some w, some ws => some (w :: ws)
    | _, _ => none

/-- `ChatDictionary.v2t`: `' '.join([self.ind2word[i] for i in list_ids])`. -/
def ChatDictionary.v2t (d : ChatDictionary) (list_ids : List Nat) : Option String :=
  (mapInd2word d list_ids).map (String.intercalate " ")

/-- `\w` of `RETOK = re.compile(r'\w+|[^\w\s]|\n', re.UNICODE)`, restricted to
ASCII: a letter, a digit or an underscore. -/
def isWordChar (c : Char) : Bool := c.isAlphanum || c = '_'

/-- `\s` of `RETOK`, restricted to ASCII whitespace. -/
def isSpaceChar (c : Char) : Bool :=
  c = ' ' || c = '\t' || c = '\n' || c = '\r' || c = '\x0b' || c = '\x0c'

/-- The scan behind `RETOK.findall`: `acc` holds the reversed characters of the
word-character run currently being matched by the greedy `\w+` alternative.  A
non-word character first flushes the pending run, then either matches
`[^\w\s]` as a single-character token, matches `\n`, or (for other whitespace)
matches nothing and is skipped. -/
def retokAux (acc : List Char) : List Char → List (List Char)
  | [] => if acc = [] then [] else [acc.reverse]
  | c :: cs =>
    if isWordChar c then retokAux (c :: acc) cs
    else
      (if acc = [] then [] else [acc.reverse]) ++
        (if isSpaceChar c then
          (if c = '\n' then [['\n']] else []) ++ retokAux [] cs
        else
          [c] :: retokAux [] cs)

/-- `RETOK.findall(text)` for the pattern `\w+|[^\w\s]|\n`. -/
def RETOK_findall (text : String) : List String :=
  (retokAux [] text.toList).map (fun cs => String.mk cs)

/-- One JSON line of a dataset file, after `json.loads`: the `'text'` field
and the `'labels'` / `'eval_labels'` target lists (an absent key is modelled
by the empty list, which makes the `[0]` access fail as in Python). -/
structure RawSample where
  text : String
  labels : List String
  eval_labels : List String

/-- The target tokenisation in `ChatDataset.__init__`:
`RETOK.findall(sample['labels'][0]) + ['__end__']` when `dt == 'train'`,
`eval_labels` when `dt == 'valid'`; `none` models the `IndexError` on an empty
target list and the `NameError` (`_tar_toked` unbound) for any other `dt`. -/
def targetTokens (dt : String) (s : RawSample) : Option (List String) :=
  if dt = "train" then
    s.labels.head?.map (fun t => RETOK_findall t ++ ["__end__"])
  else if dt = "valid" then
    s.eval_labels.head?.map (fun t => RETOK_findall t ++ ["__end__"])
  else none

/-- The body of the `for sample in tqdm(json_text)` loop of
`ChatDataset.__init__` for one line: tokenise `sample['text']`, encode it,
tokenise the first target and append `'__end__'`, encode it; `some` of the
`(text_vec, target_vec)` pair, `none` when any step raises. -/
def processSample (dictionary : ChatDictionary) (dt : String) (s : RawSample) :
    Option (List Nat × List Nat) :=
  match dictionary.t2v (RETOK_findall s.text) with
  | none => none
  | some text_vec =>
    match targetTokens dt s with
    | none => none
    | some tar_toked =>
      match dictionary.t2v tar_toked with
      | none => none
      | some target_vec => some (text_vec, target_vec)

/-- The whole `__init__` loop: `self.samples` accumulated line by line;
`none` when any line raises. -/
def buildSamples (dictionary : ChatDictionary) (dt : String) :
    List RawSample → Option (List (List Nat × List Nat))
  | [] => some []
  | s :: rest =>
    match processSample dictionary dt s, buildSamples dictionary dt rest with
    | some p, some ps => some (p :: ps)
    | _, _ => none

/-- `ChatDataset`: the processed `self.samples` list, each sample reduced to
the `(text_vec, target_vec)` pair that `__getitem__` exposes. -/
structure ChatDataset where
  samples : List (List Nat × List Nat)

/-- `ChatDataset.__init__` on an already-read and JSON-parsed file. -/
def ChatDataset.build (dataset_lines : List RawSample)
    (dictionary : ChatDictionary) (dt : String) : Option ChatDataset :=
  (buildSamples dictionary dt dataset_lines).map ChatDataset.mk

/-- `ChatDataset.__getitem__`. -/
def ChatDataset.getitem (ds : ChatDataset) (i : Nat) : List Nat × List Nat :=
  ds.samples.getD i ([], [])

/-- `ChatDataset.__len__`. -/
def ChatDataset.len (ds : ChatDataset) : Nat :=
  ds.samples.length

/-- `pad_tensor`: pads 1-D tensors to the length of the longest one.  Filling
a fresh `rows × max_t` buffer with `pad_token` and overwriting the first
`length` cells of row `i` with `tensors[i]` is, row by row, appending
`max_t - length` copies of `pad_token`.  The Python `sort=True` parameter is
never used in the body and is dropped; `max(lengths)` raises on an empty
input, where this total model returns width `0`. -/
def pad_tensor (tensors : List (List Int)) (pad_token : Int) :
    List (List Int) × List Nat :=
  let lengths := tensors.map List.length
  let max_t := lengths.foldr max 0
  (tensors.map (fun t => t ++ List.replicate (max_t - t.length) pad_token), lengths)

/-- `ind_sorted` of `argsort`: `sorted(range(len(keys)), key=lambda k: keys[k])`
(a stable sort, modelled by the stable `List.insertionSort`), reversed when
`descending`. -/
def argsortInds (keys : List Nat) (descending : Bool) : List Nat :=
  let ind_sorted :=
    List.insertionSort (fun a b => keys.getD a 0 ≤ keys.getD b 0)
      (List.range keys.length)
  if descending then ind_sorted.reverse else ind_sorted

/-- `lst[ind_sorted]` / `[lst[i] for i in ind_sorted]`: one list reordered by a
list of indices. -/
def reorderBy {α : Type} (ind : List Nat) (lst : List α) (dflt : α) : List α :=
  ind.map (fun i => lst.getD i dflt)

/-- `argsort(keys, *lists, descending=...)` for lists of one element type:
every list is reordered by the single index permutation `argsortInds`. -/
def argsort {α : Type} (keys : List Nat) (lists : List (List α)) (dflt : α)
    (descending : Bool) : List (List α) :=
  lists.map (fun lst => reorderBy (argsortInds keys descending) lst dflt)

/-- The dict returned by `batchify`. -/
structure Batch where
  text_vecs : List (List Int)
  text_lens : List Nat
  target_vecs : List (List Int)
  target_lens : List Nat
  use_packed : Bool

/-- `batchify`: split the batch into inputs and labels, pad each side, then
reorder all four lists by the descending `argsort` of the input lengths
(`argsort(input_lens, input_vecs, input_lens, label_vecs, label_lens,
descending=True)` computes one `ind_sorted` and indexes each list by it). -/
def batchify (batch : List (List Int × List Int)) : Batch :=
  let inputs := batch.map Prod.fst
  let labels := batch.map Prod.snd
  let iv := pad_tensor inputs 0
  let lv := pad_tensor labels 0
  let ind := argsortInds iv.2 true
  { text_vecs := reorderBy ind iv.1 []
    text_lens := reorderBy ind iv.2 0
    target_vecs := reorderBy ind lv.1 []
    target_lens := reorderBy ind lv.2 0
    use_packed := true }

/-- `tensor.index_select(0, indices)`: pick the dimension-0 slices listed in
`indices`, in order. -/
def index_select_dim0 {α : Type} [Inhabited α] (t : List α)
    (indices : List Nat) : List α :=
  indices.map (fun i => t.getD i default)

/-- `tensor.index_select(1, indices)`: `index_select_dim0` inside every
dimension-0 slice. -/
def index_select_dim1 {α : Type} [Inhabited α] (t : List (List α))
    (indices : List Nat) : List (List α) :=
  t.map (fun row => index_select_dim0 row indices)

/-- The `hidden` member of an encoder-state triple: a single tensor for a
GRU/RNN, an `(h, c)` pair for an LSTM.  A dimension-1 slice of the hidden
tensor is a `List α`. -/
inductive HiddenState (α : Type) where
  | single (h : List (List α))
  | pair (h c : List (List α))

/-- `reorder_encoder_states`: split `hidden` into `hid, cell` (with
`cell = None` for a plain tensor), index-select `hid` (and `cell` when
present) along dimension 1, and `enc_out` / `attention_mask` along
dimension 0.  The LongTensor/device conversion of non-tensor `indices` has no
value-level content here: indices are already a list of naturals. -/
def reorder_encoder_states {α β γ : Type} [Inhabited α] [Inhabited β]
    [Inhabited γ] (encoder_states : List β × HiddenState α × List γ)
    (indices : List Nat) : List β × HiddenState α × List γ :=
  match encoder_states with
  | (enc_out, hidden, attention_mask) =>
    let hc : List (List α) × Option (List (List α)) :=
      match hidden with
      | .single h => (h, none)
      | .pair h c => (h, some c)
    let hid := index_select_dim1 hc.1 indices
    let hidden2 : HiddenState α :=
      match hc.2 with
      | none => .single hid
      | some cell => .pair hid (index_select_dim1 cell indices)
    (index_select_dim0 enc_out indices, hidden2,
      index_select_dim0 attention_mask indices)

/-- A decoder incremental state: a tensor, or a tuple of such states. -/
inductive IncrementalState (α : Type) where
  | tensor (t : List (List α))
  | tup (elems : List (IncrementalState α))

/-- `reorder_decoder_incremental_state`.  The tensor branch index-selects
along dimension 1 (`.contiguous()` only changes memory layout, the identity
on values).  The tuple branch evaluates `self.reorder_decoder_incremental_state`,
but `self` is unbound in this module-level function, so Python raises
`NameError` there: modelled as `none`. -/
def reorder_decoder_incremental_state {α : Type} [Inhabited α]
    (incremental_state : IncrementalState α) (inds : List Nat) :
    Option (IncrementalState α) :=
  match incremental_state with
  | .tensor t => some (.tensor (index_select_dim1 t inds))
  | .tup _ => none

/-- Modelled from the spec: the beam object consumed by
`get_nbest_list_from_beam`.  Its class is not part of `utils.py`, so only the
interface the function uses is modelled: the `min_n_best` attribute and the
`_get_rescored_finished(n_best=..., add_length_penalty=...)` method, returning
finished hypotheses as (token-id list, score) pairs in beam order
(`i[0].cpu().tolist()` and `i[1].item()` are identities at this level; the
score type `σ` stays abstract). -/
structure Beam (σ : Type) where
  min_n_best : Nat
  get_rescored_finished : Nat → Bool → List (List Nat × σ)

/-- The list comprehension of `get_nbest_list_from_beam`:
`[(dictionary.v2t(i[0].cpu().tolist()), i[1].item()) for i in nbest_list]`;
`none` models a `KeyError` inside `v2t`. -/
def nbestText {σ : Type} (dictionary : ChatDictionary) :
    List (List Nat × σ) → Option (List (String × σ))
  | [] => some []
  | p :: ps =>
    match dictionary.v2t p.1, nbestText dictionary ps with
    | some t, some rest => some ((t, p.2) :: rest)
    | _, _ => none

/-- `get_nbest_list_from_beam`: default `n_best` to `beam.min_n_best`, fetch
that many rescored finished hypotheses (passing `add_length_penalty` through)
and decode each to `(text, score)`. -/
def get_nbest_list_from_beam {σ : Type} (beam : Beam σ)
    (dictionary : ChatDictionary) (n_best : Option Nat)
    (add_length_penalty : Bool) : Option (List (String × σ)) :=
  let n :=
    match n_best with
    | none => beam.min_n_best
    | some k => k
  nbestText dictionary (beam.get_rescored_finished n add_length_penalty)

theorem le_foldr_max (l : List Nat) (x : Nat) (hx : x ∈ l) : x ≤ l.foldr max 0 := by
  induction l with
  | nil => cases hx
  | cons a l ih =>
    rcases List.mem_cons.mp hx with h | h
    · subst h; exact Nat.le_max_left _ _
    · exact Nat.le_trans (ih h) (Nat.le_max_right _ _)

/-- C2: for a non-empty list of 1-D tensors, `pad_tensor` returns
`(output, lengths)` with `lengths[i] = len(tensors[i])`, `len(tensors)` rows,
`max(lengths)` columns, and row `i` equal to `tensors[i]` followed by copies
of `pad_token`. -/
theorem pad_tensor_spec (tensors : List (List Int)) (pad_token : Int)
    (hne : tensors ≠ []) :
    (pad_tensor tensors pad_token).2 = tensors.map List.length ∧
    (pad_tensor tensors pad_token).1.length = tensors.length ∧
    (∀ row ∈ (pad_tensor tensors pad_token).1,
      row.length = (tensors.map List.length).foldr max 0) ∧
    ∀ i, i < tensors.length →
      (pad_tensor tensors pad_token).1.getD i [] =
        tensors.getD i [] ++
          List.replicate
            ((tensors.map List.length).foldr max 0 -
              (tensors.getD i []).length)
            pad_token := by
  refine ⟨rfl, by simp [pad_tensor], ?_, ?_⟩
  · intro row hrow
    simp only [pad_tensor] at hrow
    obtain ⟨t, ht, rfl⟩ := List.mem_map.mp hrow
    have hle : t.length ≤ (tensors.map List.length).foldr max 0 :=
      le_foldr_max _ _ (List.mem_map_of_mem _ ht)
    simp [Nat.add_sub_cancel' hle]
  · intro i hi
    have hi1 : i < (pad_tensor tensors pad_token).1.length := by
      simpa [pad_tensor] using hi
    rw [List.getD_eq_getElem _ _ hi1, List.getD_eq_getElem _ _ hi]
    simp [pad_tensor]

theorem pad_tensor_spec_witness :
    ([[1, 2, 3], [4]] : List (List Int)) ≠ [] ∧
    ((pad_tensor [[1, 2, 3], [4]] 0).2 =
      ([[1, 2, 3], [4]] : List (List Int)).map List.length ∧
    (pad_tensor [[1, 2, 3], [4]] 0).1.length =
      ([[1, 2, 3], [4]] : List (List Int)).length ∧
    (∀ row ∈ (pad_tensor [[1, 2, 3], [4]] 0).1,
      row.length =
        (([[1, 2, 3], [4]] : List (List Int)).map List.length).foldr max 0) ∧
    ∀ i, i < ([[1, 2, 3], [4]] : List (List Int)).length →
      (pad_tensor [[1, 2, 3], [4]] 0).1.getD i [] =
        ([[1, 2, 3], [4]] : List (List Int)).getD i [] ++
          List.replicate
            ((([[1, 2, 3], [4]] : List (List Int)).map List.length).foldr
                max 0 -
              (([[1, 2, 3], [4]] : List (List Int)).getD i []).length)
            0) :=
  ⟨by decide, pad_tensor_spec [[1, 2, 3], [4]] 0 (by decide)⟩

theorem argsortInds_perm (keys : List Nat) :
    (argsortInds keys true).Perm (List.range keys.length) := by
  unfold argsortInds
  simp only [if_pos]
  exact (List.reverse_perm _).trans (List.perm_insertionSort _ _)

theorem argsortInds_sorted (keys : List Nat) :
    List.Sorted (fun a b => b ≤ a)
      ((argsortInds keys true).map (fun i => keys.getD i 0)) := by
  unfold argsortInds
  haveI : IsTotal Nat (fun a b => keys.getD a 0 ≤ keys.getD b 0) :=
    ⟨fun a b => Nat.le_total _ _⟩
  haveI : IsTrans Nat (fun a b => keys.getD a 0 ≤ keys.getD b 0) :=
    ⟨fun a b c => Nat.le_trans⟩
  rw [List.Sorted, List.pairwise_map]
  simp only [if_pos]
  rw [List.pairwise_reverse]
  exact List.sorted_insertionSort _ _

theorem getD_map_map {α β γ : Type} (f : α → β) (g : β → γ) (l : List α)
    (j : Nat) (hj : j < l.length) (d : α) (dg : γ) :
    ((l.map f).map g).getD j dg = g (f (l.getD j d)) := by
  have h1 : j < ((l.map f).map g).length := by simpa using hj
  rw [List.getD_eq_getElem _ _ h1, List.getD_eq_getElem _ _ hj]
  simp

/-- C1: for a non-empty batch of (input, label) pairs, `batchify` returns a
dict with `use_packed = True`, `text_lens` sorted non-increasing, and one
permutation of the batch positions applied simultaneously to `text_vecs`,
`text_lens`, `target_vecs` and `target_lens`: position `i` holds the padded
input row, the input length, the padded label row and the label length of the
same original pair `σ[i]`. -/
theorem batchify_spec (batch : List (List Int × List Int)) (hne : batch ≠ []) :
    (batchify batch).use_packed = true ∧
    List.Sorted (fun a b => b ≤ a) (batchify batch).text_lens ∧
    ∃ σ : List Nat, σ.Perm (List.range batch.length) ∧
      (batchify batch).text_vecs =
        σ.map (fun j => (pad_tensor (batch.map Prod.fst) 0).1.getD j []) ∧
      (batchify batch).text_lens =
        σ.map (fun j => (batch.getD j ([], [])).1.length) ∧
      (batchify batch).target_vecs =
        σ.map (fun j => (pad_tensor (batch.map Prod.snd) 0).1.getD j []) ∧
      (batchify batch).target_lens =
        σ.map (fun j => (batch.getD j ([], [])).2.length) := by
  have hkeys : (pad_tensor (batch.map Prod.fst) 0).2 =
      (batch.map Prod.fst).map List.length := rfl
  have hklen : ((batch.map Prod.fst).map List.length).length = batch.length := by
    simp
  have hmem : ∀ j ∈ argsortInds (pad_tensor (batch.map Prod.fst) 0).2 true,
      j < batch.length := by
    intro j hj
    have := (argsortInds_perm (pad_tensor (batch.map Prod.fst) 0).2).mem_iff.mp hj
    rw [hkeys, hklen] at this
    exact List.mem_range.mp this
  refine ⟨rfl, argsortInds_sorted _, argsortInds (pad_tensor (batch.map Prod.fst) 0).2 true,
    ?_, rfl, ?_, rfl, ?_⟩
  · have := argsortInds_perm (pad_tensor (batch.map Prod.fst) 0).2
    rwa [hkeys, hklen] at this
  · show ((argsortInds (pad_tensor (batch.map Prod.fst) 0).2 true).map
        (fun i => (pad_tensor (batch.map Prod.fst) 0).2.getD i 0)) = _
    apply List.map_congr_left
    intro j hj
    rw [hkeys]
    exact getD_map_map Prod.fst List.length batch j (hmem j hj) ([], []) 0
  · show ((argsortInds (pad_tensor (batch.map Prod.fst) 0).2 true).map
        (fun i => (pad_tensor (batch.map Prod.snd) 0).2.getD i 0)) = _
    apply List.map_congr_left
    intro j hj
    show ((batch.map Prod.snd).map List.length).getD j 0 = _
    exact getD_map_map Prod.snd List.length batch j (hmem j hj) ([], []) 0

theorem batchify_spec_witness :
    ([([1, 2, 3], [7]), ([4], [8, 9]), ([5, 6], [10])] :
        List (List Int × List Int)) ≠ [] ∧
    ((batchify [([1, 2, 3], [7]), ([4], [8, 9]), ([5, 6], [10])]).use_packed = true ∧
    List.Sorted (fun a b => b ≤ a)
      (batchify [([1, 2, 3], [7]), ([4], [8, 9]), ([5, 6], [10])]).text_lens ∧
    ∃ σ : List Nat,
      σ.Perm (List.range ([([1, 2, 3], [7]), ([4], [8, 9]), ([5, 6], [10])] :
        List (List Int × List Int)).length) ∧
      (batchify [([1, 2, 3], [7]), ([4], [8, 9]), ([5, 6], [10])]).text_vecs =
        σ.map (fun j =>
          (pad_tensor (([([1, 2, 3], [7]), ([4], [8, 9]), ([5, 6], [10])] :
            List (List Int × List Int)).map Prod.fst) 0).1.getD j []) ∧
      (batchify [([1, 2, 3], [7]), ([4], [8, 9]), ([5, 6], [10])]).text_lens =
        σ.map (fun j =>
          (([([1, 2, 3], [7]), ([4], [8, 9]), ([5, 6], [10])] :
            List (List Int × List Int)).getD j ([], [])).1.length) ∧
      (batchify [([1, 2, 3], [7]), ([4], [8, 9]), ([5, 6], [10])]).target_vecs =
        σ.map (fun j =>
          (pad_tensor (([([1, 2, 3], [7]), ([4], [8, 9]), ([5, 6], [10])] :
            List (List Int × List Int)).map Prod.snd) 0).1.getD j []) ∧
      (batchify [([1, 2, 3], [7]), ([4], [8, 9]), ([5, 6], [10])]).target_lens =
        σ.map (fun j =>
          (([([1, 2, 3], [7]), ([4], [8, 9]), ([5, 6], [10])] :
            List (List Int × List Int)).getD j ([], [])).2.length)) :=
  ⟨by decide,
    batchify_spec [([1, 2, 3], [7]), ([4], [8, 9]), ([5, 6], [10])] (by decide)⟩

theorem domInv_buildDictAux (es : List (String × String)) (d : ChatDictionary)
    (n : Nat) (hd : ∀ w, (d.counts w).isSome → (d.word2ind w).isSome) :
    ∀ w, ((buildDictAux d n es).counts w).isSome →
      ((buildDictAux d n es).word2ind w).isSome := by
  induction es generalizing d n with
  | nil => exact hd
  | cons e rest ih =>
    obtain ⟨w0, c0⟩ := e
    apply ih
    intro w hw
    simp only [addEntry] at hw ⊢
    by_cases h : w = fixWord w0
    · simp [h]
    · simp only [if_neg h] at hw ⊢
      exact hd w hw

theorem domInv_buildDict (entries : List (String × String)) :
    ∀ w, ((buildDict entries).counts w).isSome →
      ((buildDict entries).word2ind w).isSome := by
  apply domInv_buildDictAux
  intro w hw
  simp [emptyChatDictionary] at hw

/-- C3: `t2v` maps a token list elementwise, sending a token `w` to
`word2ind[w]` when `w` is a key of `counts` and to `word2ind['__unk__']`
otherwise, so the output has the length of the input. -/
theorem t2v_spec (entries : List (String × String)) (toks : List String)
    (h : ∀ w ∈ toks, ((buildDict entries).counts w).isSome = true ∨
      ((buildDict entries).word2ind "__unk__").isSome = true) :
    (buildDict entries).t2v toks =
      some (toks.map (fun w =>
        if ((buildDict entries).counts w).isSome then
          ((buildDict entries).word2ind w).getD 0
        else ((buildDict entries).word2ind "__unk__").getD 0)) := by
  induction toks with
  | nil => rfl
  | cons w ws ih =>
    have hw := h w (List.mem_cons_self w ws)
    have hrest := ih (fun x hx => h x (List.mem_cons_of_mem _ hx))
    have hhead : lookupToken (buildDict entries) w =
        some (if ((buildDict entries).counts w).isSome then
          ((buildDict entries).word2ind w).getD 0
        else ((buildDict entries).word2ind "__unk__").getD 0) := by
      unfold lookupToken
      by_cases hc : ((buildDict entries).counts w).isSome
      · obtain ⟨v, hv⟩ := Option.isSome_iff_exists.mp (domInv_buildDict entries w hc)
        rw [if_pos hc, if_pos hc, hv]
        rfl
      · rcases hw with hw | hw
        · exact absurd hw hc
        · obtain ⟨v, hv⟩ := Option.isSome_iff_exists.mp hw
          rw [if_neg hc, if_neg hc, hv]
          rfl
    simp only [ChatDictionary.t2v, hhead, hrest, List.map_cons]

theorem t2v_spec_witness :
    (∀ w ∈ (["hello", "zzz"] : List String),
      ((buildDict [("hello", "2"), ("__unk__", "1")]).counts w).isSome = true ∨
      ((buildDict [("hello", "2"), ("__unk__", "1")]).word2ind
        "__unk__").isSome = true) ∧
    (buildDict [("hello", "2"), ("__unk__", "1")]).t2v ["hello", "zzz"] =
      some ((["hello", "zzz"] : List String).map (fun w =>
        if ((buildDict [("hello", "2"), ("__unk__", "1")]).counts w).isSome then
          ((buildDict [("hello", "2"), ("__unk__", "1")]).word2ind w).getD 0
        else
          ((buildDict [("hello", "2"), ("__unk__", "1")]).word2ind
            "__unk__").getD 0)) :=
  ⟨by decide,
    t2v_spec [("hello", "2"), ("__unk__", "1")] ["hello", "zzz"] (by decide)⟩

theorem buildDictAux_inverse (es : List (String × String)) (d : ChatDictionary)
    (n : Nat)
    (hd : ∀ w i, d.word2ind w = some i → d.ind2word i = some w ∧ i < n)
    (hfresh : ∀ e ∈ es, d.word2ind (fixWord e.1) = none)
    (hdist : (es.map (fun e => fixWord e.1)).Pairwise (· ≠ ·)) :
    ∀ w i, (buildDictAux d n es).word2ind w = some i →
      (buildDictAux d n es).ind2word i = some w ∧ i < n + es.length := by
  induction es generalizing d n with
  | nil =>
    intro w i hw
    simpa using hd w i hw
  | cons e rest ih =>
    obtain ⟨w0, c0⟩ := e
    intro w i hw
    rw [List.map_cons] at hdist
    rcases List.pairwise_cons.mp hdist with ⟨hhead, htail⟩
    have hd2 : ∀ w i, (addEntry d n w0 c0).word2ind w = some i →
        (addEntry d n w0 c0).ind2word i = some w ∧ i < n + 1 := by
      intro x j hx
      simp only [addEntry] at hx ⊢
      by_cases h : x = fixWord w0
      · rw [if_pos h] at hx
        have hj : j = n := by injection hx with hx; omega
        subst hj
        rw [if_pos rfl, h]
        exact ⟨rfl, Nat.lt_succ_self _⟩
      · rw [if_neg h] at hx
        obtain ⟨h1, h2⟩ := hd x j hx
        rw [if_neg (Nat.ne_of_lt h2)]
        exact ⟨h1, Nat.lt_succ_of_lt h2⟩
    have hfresh2 : ∀ e ∈ rest, (addEntry d n w0 c0).word2ind (fixWord e.1) = none := by
      intro e he
      simp only [addEntry]
      have hne : fixWord e.1 ≠ fixWord w0 :=
        fun hc => hhead (fixWord e.1) (List.mem_map_of_mem _ he) hc.symm
      rw [if_neg hne]
      exact hfresh e (List.mem_cons_of_mem _ he)
    have step := ih (addEntry d n w0 c0) (n + 1) hd2 hfresh2 htail w i hw
    refine ⟨step.1, ?_⟩
    have := step.2
    simp only [List.length_cons]
    omega

theorem buildDict_inverse (entries : List (String × String))
    (hdist : (entries.map (fun e => fixWord e.1)).Pairwise (· ≠ ·)) :
    ∀ w i, (buildDict entries).word2ind w = some i →
      (buildDict entries).ind2word i = some w := by
  intro w i hw
  exact (buildDictAux_inverse entries emptyChatDictionary 0
    (by intro x j h; simp [emptyChatDictionary] at h)
    (by intro e he; rfl) hdist w i hw).1

theorem t2v_mapInd2word (entries : List (String × String))
    (hdist : (entries.map (fun e => fixWord e.1)).Pairwise (· ≠ ·)) :
    ∀ toks : List String,
      (∀ w ∈ toks, ((buildDict entries).counts w).isSome = true) →
      ∃ ids, (buildDict entries).t2v toks = some ids ∧
        mapInd2word (buildDict entries) ids = some toks := by
  intro toks
  induction toks with
  | nil => exact fun _ => ⟨[], rfl, rfl⟩
  | cons w ws ih =>
    intro h
    obtain ⟨ids, hids, hmap⟩ := ih (fun x hx => h x (List.mem_cons_of_mem _ hx))
    have hc := h w (List.mem_cons_self w ws)
    obtain ⟨i, hi⟩ := Option.isSome_iff_exists.mp (domInv_buildDict entries w hc)
    have hlook : lookupToken (buildDict entries) w = some i := by
      unfold lookupToken
      rw [if_pos hc, hi]
    have hinv := buildDict_inverse entries hdist w i hi
    refine ⟨i :: ids, ?_, ?_⟩
    · simp only [ChatDictionary.t2v, hlook, hids]
    · simp only [mapInd2word, hinv, hmap]

/-- C8: when the dictionary file's (normalised) words are pairwise distinct
and every token is a key of `counts`, decoding after encoding is the identity
up to the space join: `v2t(t2v(tokens)) = ' '.join(tokens)`. -/
theorem t2v_v2t_roundtrip (entries : List (String × String))
    (toks : List String)
    (hdist : (entries.map (fun e => fixWord e.1)).Pairwise (· ≠ ·))
    (htoks : ∀ w ∈ toks, ((buildDict entries).counts w).isSome = true) :
    ((buildDict entries).t2v toks).bind (buildDict entries).v2t =
      some (String.intercalate " " toks) := by
  obtain ⟨ids, hids, hmap⟩ := t2v_mapInd2word entries hdist toks htoks
  rw [hids, Option.some_bind]
  unfold ChatDictionary.v2t
  rw [hmap]
  rfl

theorem t2v_v2t_roundtrip_witness :
    ((([("a", "1"), ("b", "2")] : List (String × String)).map
        (fun e => fixWord e.1)).Pairwise (· ≠ ·)) ∧
    (∀ w ∈ (["b", "a", "b"] : List String),
      ((buildDict [("a", "1"), ("b", "2")]).counts w).isSome = true) ∧
    ((buildDict [("a", "1"), ("b", "2")]).t2v ["b", "a", "b"]).bind
        (buildDict [("a", "1"), ("b", "2")]).v2t =
      some (String.intercalate " " ["b", "a", "b"]) :=
  ⟨by decide, by decide,
    t2v_v2t_roundtrip [("a", "1"), ("b", "2")] ["b", "a", "b"]
      (by decide) (by decide)⟩

theorem index_select_dim0_getD {α : Type} [Inhabited α] (t : List α)
    (indices : List Nat) (k : Nat) (hk : k < indices.length) :
    (index_select_dim0 t indices).getD k default =
      t.getD (indices.getD k 0) default := by
  unfold index_select_dim0
  have h1 : k < (indices.map (fun i => t.getD i default)).length := by
    simpa using hk
  rw [List.getD_eq_getElem _ _ h1, List.getD_eq_getElem _ _ hk]
  simp

/-- C4: `reorder_encoder_states` index-selects `enc_out` and `attention_mask`
along dimension 0 by `indices` and the hidden state along dimension 1 — both
members of an `(h, c)` LSTM pair, the single tensor for a GRU/RNN — and the
dimension-0 selections pick exactly the slices `indices[k]`, in order. -/
theorem reorder_encoder_states_spec {α β γ : Type} [Inhabited α] [Inhabited β]
    [Inhabited γ] (enc_out : List β) (hidden : HiddenState α)
    (attention_mask : List γ) (indices : List Nat) :
    (reorder_encoder_states (enc_out, hidden, attention_mask) indices).1 =
      index_select_dim0 enc_out indices ∧
    (reorder_encoder_states (enc_out, hidden, attention_mask) indices).2.2 =
      index_select_dim0 attention_mask indices ∧
    (reorder_encoder_states (enc_out, hidden, attention_mask) indices).2.1 =
      (match hidden with
        | HiddenState.single h => HiddenState.single (index_select_dim1 h indices)
        | HiddenState.pair h c =>
          HiddenState.pair (index_select_dim1 h indices)
            (index_select_dim1 c indices)) ∧
    (∀ k, k < indices.length →
      (reorder_encoder_states (enc_out, hidden, attention_mask)
          indices).1.getD k default =
        enc_out.getD (indices.getD k 0) default) ∧
    (∀ k, k < indices.length →
      (reorder_encoder_states (enc_out, hidden, attention_mask)
          indices).2.2.getD k default =
        attention_mask.getD (indices.getD k 0) default) := by
  cases hidden <;>
    exact ⟨rfl, rfl, rfl, fun k hk => index_select_dim0_getD _ _ k hk,
      fun k hk => index_select_dim0_getD _ _ k hk⟩

theorem reorder_encoder_states_spec_witness :
    (reorder_encoder_states ([[(1 : Int)], [2]],
        HiddenState.pair [[(10 : Int), 11]] [[(20 : Int), 21]],
        [[(3 : Int)], [4]]) [1, 0]).1 =
      index_select_dim0 [[(1 : Int)], [2]] [1, 0] ∧
    (reorder_encoder_states ([[(1 : Int)], [2]],
        HiddenState.pair [[(10 : Int), 11]] [[(20 : Int), 21]],
        [[(3 : Int)], [4]]) [1, 0]).2.2 =
      index_select_dim0 [[(3 : Int)], [4]] [1, 0] ∧
    (reorder_encoder_states ([[(1 : Int)], [2]],
        HiddenState.pair [[(10 : Int), 11]] [[(20 : Int), 21]],
        [[(3 : Int)], [4]]) [1, 0]).2.1 =
      HiddenState.pair (index_select_dim1 [[(10 : Int), 11]] [1, 0])
        (index_select_dim1 [[(20 : Int), 21]] [1, 0]) ∧
    (∀ k, k < ([1, 0] : List Nat).length →
      (reorder_encoder_states ([[(1 : Int)], [2]],
          HiddenState.pair [[(10 : Int), 11]] [[(20 : Int), 21]],
          [[(3 : Int)], [4]]) [1, 0]).1.getD k default =
        ([[(1 : Int)], [2]] : List (List Int)).getD
          (([1, 0] : List Nat).getD k 0) default) ∧
    (∀ k, k < ([1, 0] : List Nat).length →
      (reorder_encoder_states ([[(1 : Int)], [2]],
          HiddenState.pair [[(10 : Int), 11]] [[(20 : Int), 21]],
          [[(3 : Int)], [4]]) [1, 0]).2.2.getD k default =
        ([[(3 : Int)], [4]] : List (List Int)).getD
          (([1, 0] : List Nat).getD k 0) default) :=
  reorder_encoder_states_spec [[(1 : Int)], [2]]
    (HiddenState.pair [[(10 : Int), 11]] [[(20 : Int), 21]])
    [[(3 : Int)], [4]] [1, 0]

/-- C5 (code bug in the source): the tensor branch of
`reorder_decoder_incremental_state` returns the dimension-1 `index_select`,
but the tuple branch evaluates `self.reorder_decoder_incremental_state` and
`self` is unbound in this module-level function, so an LSTM `(h, c)` tuple
state raises `NameError` instead of being reordered componentwise: the model
returns `none` on this concrete tuple state. -/
theorem reorder_decoder_incremental_state_tuple_raises :
    reorder_decoder_incremental_state
      (IncrementalState.tup
        [IncrementalState.tensor [[(1 : Int)]],
          IncrementalState.tensor [[2]]]) [0] = none := rfl

theorem nbestText_spec {σ : Type} (dictionary : ChatDictionary) :
    ∀ hs : List (List Nat × σ),
      (∀ p ∈ hs, (dictionary.v2t p.1).isSome = true) →
      nbestText dictionary hs =
        some (hs.map (fun p => ((dictionary.v2t p.1).getD "", p.2))) := by
  intro hs
  induction hs with
  | nil => exact fun _ => rfl
  | cons p ps ih =>
    intro h
    obtain ⟨t, ht⟩ :=
      Option.isSome_iff_exists.mp (h p (List.mem_cons_self p ps))
    have hrest := ih (fun q hq => h q (List.mem_cons_of_mem _ hq))
    simp only [nbestText, ht, hrest, List.map_cons, Option.getD_some]

/-- C7: with `n_best=None`, `get_nbest_list_from_beam` requests exactly
`beam.min_n_best` hypotheses from `beam._get_rescored_finished` (passing
`add_length_penalty` through) and returns, in beam order, the pair of
`dictionary.v2t` on each hypothesis's token ids and its plain score. -/
theorem get_nbest_list_from_beam_spec {σ : Type} (beam : Beam σ)
    (dictionary : ChatDictionary) (add_length_penalty : Bool)
    (h : ∀ p ∈ beam.get_rescored_finished beam.min_n_best add_length_penalty,
      (dictionary.v2t p.1).isSome = true) :
    get_nbest_list_from_beam beam dictionary none add_length_penalty =
      some ((beam.get_rescored_finished beam.min_n_best
          add_length_penalty).map
        (fun p => ((dictionary.v2t p.1).getD "", p.2))) := by
  unfold get_nbest_list_from_beam
  exact nbestText_spec dictionary _ h

theorem get_nbest_list_from_beam_spec_witness :
    (∀ p ∈ (Beam.mk 1 (fun _ _ => [([0], (7 : Int))])).get_rescored_finished
        (Beam.mk 1 (fun _ _ => [([0], (7 : Int))]) : Beam Int).min_n_best
        false,
      ((buildDict [("hey", "1")]).v2t p.1).isSome = true) ∧
    get_nbest_list_from_beam (Beam.mk 1 (fun _ _ => [([0], (7 : Int))]))
        (buildDict [("hey", "1")]) none false =
      some (((Beam.mk 1 (fun _ _ => [([0], (7 : Int))]) :
          Beam Int).get_rescored_finished 1 false).map
        (fun p => (((buildDict [("hey", "1")]).v2t p.1).getD "", p.2))) :=
  ⟨by decide,
    get_nbest_list_from_beam_spec (Beam.mk 1 (fun _ _ => [([0], (7 : Int))]))
      (buildDict [("hey", "1")]) false (by decide)⟩

theorem buildSamples_spec (dictionary : ChatDictionary) (dt : String) :
    ∀ (xs : List RawSample) (ys : List (List Nat × List Nat)),
      buildSamples dictionary dt xs = some ys →
      ys.length = xs.length ∧
      ∀ i, i < xs.length →
        processSample dictionary dt (xs.getD i ⟨"", [], []⟩) =
          some (ys.getD i ([], [])) := by
  intro xs
  induction xs with
  | nil =>
    intro ys h
    injection h with h
    subst h
    exact ⟨rfl, fun i hi => absurd hi (Nat.not_lt_zero i)⟩
  | cons s rest ih =>
    intro ys h
    simp only [buildSamples] at h
    cases hp : processSample dictionary dt s with
    | none => rw [hp] at h; cases h
    | some p =>
      cases hr : buildSamples dictionary dt rest with
      | none => rw [hp, hr] at h; cases h
      | some ps =>
        rw [hp, hr] at h
        injection h with h
        subst h
        obtain ⟨hlen, hidx⟩ := ih ps hr
        refine ⟨by simp [hlen], ?_⟩
        intro i hi
        cases i with
        | zero => simpa using hp
        | succ j =>
          have hj : j < rest.length := by simpa using hi
          simpa using hidx j hj

/-- C6: on a file of samples each holding `text` and a non-empty target list
under `labels` (`dt='train'`) or `eval_labels` (`dt='valid'`), `ChatDataset`
tokenises `sample['text']` with RETOK and encodes it with `t2v`, tokenises
the first target and appends `'__end__'` before encoding, `__getitem__(i)`
returns the `(text_vec, target_vec)` pair of line `i`, and `__len__` is the
number of lines. -/
theorem ChatDataset_spec (dataset_lines : List RawSample)
    (dictionary : ChatDictionary) (dt : String) (ds : ChatDataset)
    (hdt : dt = "train" ∨ dt = "valid")
    (hbuild : ChatDataset.build dataset_lines dictionary dt = some ds) :
    ds.len = dataset_lines.length ∧
    ∀ i, i < dataset_lines.length →
      ∃ t0 text_vec target_vec,
        (if dt = "train" then (dataset_lines.getD i ⟨"", [], []⟩).labels
          else (dataset_lines.getD i ⟨"", [], []⟩).eval_labels).head? =
            some t0 ∧
        dictionary.t2v
            (RETOK_findall (dataset_lines.getD i ⟨"", [], []⟩).text) =
          some text_vec ∧
        dictionary.t2v (RETOK_findall t0 ++ ["__end__"]) = some target_vec ∧
        ds.getitem i = (text_vec, target_vec) := by
  unfold ChatDataset.build at hbuild
  cases hbs : buildSamples dictionary dt dataset_lines with
  | none => rw [hbs] at hbuild; cases hbuild
  | some ys =>
    rw [hbs] at hbuild
    simp only [Option.map_some'] at hbuild
    injection hbuild with hbuild
    subst hbuild
    obtain ⟨hlen, hidx⟩ := buildSamples_spec dictionary dt dataset_lines ys hbs
    refine ⟨hlen, ?_⟩
    intro i hi
    have hp := hidx i hi
    unfold processSample at hp
    cases htv : dictionary.t2v
        (RETOK_findall (dataset_lines.getD i ⟨"", [], []⟩).text) with
    | none => rw [htv] at hp; cases hp
    | some text_vec =>
      rw [htv] at hp
      cases htt : targetTokens dt (dataset_lines.getD i ⟨"", [], []⟩) with
      | none => rw [htt] at hp; cases hp
      | some tar_toked =>
        rw [htt] at hp
        dsimp only at hp
        cases htv2 : dictionary.t2v tar_toked with
        | none => rw [htv2] at hp; cases hp
        | some target_vec =>
          rw [htv2] at hp
          dsimp only at hp
          injection hp with hp
          unfold targetTokens at htt
          rcases hdt with hdt | hdt <;> subst hdt
          · rw [if_pos rfl] at htt
            cases ht0 : (dataset_lines.getD i ⟨"", [], []⟩).labels.head? with
            | none => rw [ht0] at htt; cases htt
            | some t0 =>
              rw [ht0, Option.map_some'] at htt
              injection htt with htt
              refine ⟨t0, text_vec, target_vec, ?_, rfl, ?_, ?_⟩
              · rw [if_pos rfl]
                exact ht0
              · rw [htt]
                exact htv2
              · exact hp.symm
          · rw [if_neg (by decide), if_pos rfl] at htt
            cases ht0 : (dataset_lines.getD i ⟨"", [], []⟩).eval_labels.head? with
            | none => rw [ht0] at htt; cases htt
            | some t0 =>
              rw [ht0, Option.map_some'] at htt
              injection htt with htt
              refine ⟨t0, text_vec, target_vec, ?_, rfl, ?_, ?_⟩
              · rw [if_neg (by decide)]
                exact ht0
              · rw [htt]
                exact htv2
              · exact hp.symm

theorem ChatDataset_spec_witness :
    (("train" : String) = "train" ∨ ("train" : String) = "valid") ∧
    ChatDataset.build [⟨"hi", ["hi"], []⟩]
        (buildDict [("hi", "1"), ("__end__", "1"), ("__unk__", "1")]) "train" =
      some (ChatDataset.mk [([0], [0, 1])]) ∧
    ((ChatDataset.mk [([0], [0, 1])]).len =
        ([⟨"hi", ["hi"], []⟩] : List RawSample).length ∧
    ∀ i, i < ([⟨"hi", ["hi"], []⟩] : List RawSample).length →
      ∃ t0 text_vec target_vec,
        (if ("train" : String) = "train" then
            (([⟨"hi", ["hi"], []⟩] : List RawSample).getD i
              ⟨"", [], []⟩).labels
          else
            (([⟨"hi", ["hi"], []⟩] : List RawSample).getD i
              ⟨"", [], []⟩).eval_labels).head? = some t0 ∧
        (buildDict [("hi", "1"), ("__end__", "1"), ("__unk__", "1")]).t2v
            (RETOK_findall
              (([⟨"hi", ["hi"], []⟩] : List RawSample).getD i
                ⟨"", [], []⟩).text) =
          some text_vec ∧
        (buildDict [("hi", "1"), ("__end__", "1"), ("__unk__", "1")]).t2v
            (RETOK_findall t0 ++ ["__end__"]) = some target_vec ∧
        (ChatDataset.mk [([0], [0, 1])]).getitem i = (text_vec, target_vec)) :=
  ⟨Or.inl rfl, rfl,
    ChatDataset_spec [⟨"hi", ["hi"], []⟩]
      (buildDict [("hi", "1"), ("__end__", "1"), ("__unk__", "1")]) "train"
      (ChatDataset.mk [([0], [0, 1])]) (Or.inl rfl) rfl⟩
